import Mathlib

/-!
Verification of the testing-support module of a cargo dependency-graph
vendoring tool.  The module under study provides mocks for a crates.io-style
remote registry (`mock_remote_crate`) and for the registry's sharded on-disk
index (`mock_crate_index`).  We embed those functions shallowly: strings are
either Lean `String`s or UTF-8 byte lists (`List Nat`), filesystem writes and
HTTP endpoints become explicit data, and a Rust panic becomes `Option.none`.
-/

namespace CargoRaze

/-- UTF-8 encoding of a single character, byte by byte. -/
def utf8Char (c : Char) : List Nat :=
  let n := c.toNat
  if n < 0x80 then [n]
  else if n < 0x800 then [0xC0 + n / 64, 0x80 + n % 64]
  else if n < 0x10000 then
    [0xE0 + n / 4096, 0x80 + (n / 64) % 64, 0x80 + n % 64]
  else
    [0xF0 + n / 262144, 0x80 + (n / 4096) % 64, 0x80 + (n / 64) % 64, 0x80 + n % 64]

/-- UTF-8 encoding of a string as a list of byte values, mirroring what
Rust's `str::as_bytes` exposes. -/
def utf8 (s : String) : List Nat :=
  (s.data.map utf8Char).flatten

/-- A minimal JSON value model, as produced by the `json!` macro in the
source.  String payloads are UTF-8 byte lists so that byte-level and
string-level parts of the development share one value type. -/
inductive Json where
  | null : Json
  | bool (b : Bool) : Json
  | num (n : Nat) : Json
  | str (s : List Nat) : Json
  | arr (elems : List Json) : Json
  | obj (fields : List (String × Json)) : Json

/-- Field lookup in a JSON object; `none` on non-objects or missing keys. -/
def Json.lookup (j : Json) (key : String) : Option Json :=
  match j with
  | .obj fields => List.lookup key fields
  | _ => none

/-! ### The mocked remote registry (`mock_remote_crate`) -/

/-- HTTP methods used by the mock server (only GET appears in the source). -/
inductive HttpMethod where
  | GET : HttpMethod
deriving DecidableEq, Repr

/-- The archive is produced by a `GzEncoder` wrapped around a `tar::Builder`,
so its format is a gzip-compressed tar. -/
inductive ArchiveFormat where
  | gzipTar : ArchiveFormat
deriving DecidableEq, Repr

/-- One file stored inside the mock archive. -/
structure ArchiveEntry where
  path : String
  content : String
deriving DecidableEq, Repr

/-- The mock crate archive: a format tag plus its file entries. -/
structure Archive where
  format : ArchiveFormat
  entries : List ArchiveEntry
deriving DecidableEq, Repr

/-- A mock HTTP response: either a JSON body or a file body with a
content-type header, each with a status code. -/
inductive MockResponse where
  | jsonBody (status : Nat) (body : Json) : MockResponse
  | fileBody (status : Nat) (contentType : String) (body : Archive) : MockResponse

/-- A registered mock endpoint: the method and path it matches, and the
response it serves. -/
structure Endpoint where
  method : HttpMethod
  path : String
  response : MockResponse

/-- Modelled from the spec: `package_ident` lives in the `util` module, which
is outside the sources at hand; the spec fixes the registry's
package-directory naming convention as `name-version`. -/
def package_ident (name version : String) : String :=
  name ++ "-" ++ version

/-- Contents of the `Cargo.toml` written into the mock archive
(`named_toml_contents` in the source, a `formatdoc!` template). -/
def named_toml_contents (name version : String) : String :=
  "[package]\nname = \"" ++ name ++ "\"\nversion = \"" ++ version ++
    "\"\n\n[lib]\npath = \"not_a_file.rs\"\n\n"

/-- Contents of the `Cargo.lock` written into the mock archive
(`named_lock_contents` in the source, a `formatdoc!` template). -/
def named_lock_contents (name version : String) : String :=
  "[[package]]\nname = \"" ++ name ++ "\"\nversion = \"" ++ version ++
    "\"\n\ndependencies = [\n]\n\n"

/-- The crate-info JSON body served for `GET /api/v1/crates/name`,
transcribed from the `json!` literal in `mock_remote_crate`. -/
def crate_info_body (name version : String) : Json :=
  .obj
    [ ("crate", .obj
        [ ("id", .str (utf8 name))
        , ("name", .str (utf8 name))
        , ("versions", .arr [.num 123456]) ])
    , ("versions", .arr
        [ .obj
            [ ("id", .num 123456)
            , ("crate", .str (utf8 name))
            , ("num", .str (utf8 version))
            , ("dl_path",
               .str (utf8 ("/api/v1/crates/" ++ name ++ "/" ++ version ++ "/download"))) ] ]) ]

/-- The tar archive assembled by `mock_remote_crate`: an `archive` scratch
directory holding an empty `test` file, a `Cargo.toml` and a `Cargo.lock` is
appended under the top-level directory `package_ident name version`. -/
def mock_tar_archive (name version : String) : Archive :=
  { format := .gzipTar
  , entries :=
      [ { path := package_ident name version ++ "/" ++ "test", content := "" }
      , { path := package_ident name version ++ "/" ++ "Cargo.toml"
        , content := named_toml_contents name version }
      , { path := package_ident name version ++ "/" ++ "Cargo.lock"
        , content := named_lock_contents name version } ] }

/-- The two endpoints `mock_remote_crate` registers on the mock server: the
crate-info endpoint and the download endpoint. -/
def mock_remote_crate (name version : String) : List Endpoint :=
  [ { method := .GET
    , path := "/api/v1/crates/" ++ name
    , response := .jsonBody 200 (crate_info_body name version) }
  , { method := .GET
    , path := "/api/v1/crates/" ++ name ++ "/" ++ version ++ "/download"
    , response := .fileBody 200 "application/x-tar" (mock_tar_archive name version) } ]

/-! ### The mocked sharded index (`mock_crate_index`) -/

/-- Rust's `str::is_char_boundary` on a UTF-8 byte list: index 0 is always a
boundary, the end of the string is a boundary, and an interior index is a
boundary exactly when the byte there is not a UTF-8 continuation byte. -/
def is_char_boundary (bytes : List Nat) (i : Nat) : Bool :=
  if i = 0 then true
  else
    match bytes.get? i with
    | some b => decide (b < 0x80) || decide (0xC0 ≤ b)
    | none => decide (i = bytes.length)

/-- Decimal rendering of a natural number as ASCII bytes, as produced by
`usize::to_string` for the by-length shard directory. -/
def lenDirName (n : Nat) : List Nat :=
  (Nat.toDigits 10 n).map Char.toNat

/-- The shard path computed inside the loop of `mock_crate_index` for one
crate name (as UTF-8 bytes): directory components paired with the file name.
Names of byte length < 4 go under the directory named by the decimal length;
otherwise the source slices `name[0..2]` and `name[2..4]`, which panics
(`none` here) when byte index 2 or 4 is not a character boundary. -/
def crate_index_shard (name : List Nat) : Option (List (List Nat) × List Nat) :=
  if name.length < 4 then
    some ([lenDirName name.length], name)
  else if is_char_boundary name 2 && is_char_boundary name 4 then
    some ([name.take 2, (name.drop 2).take 2], name)
  else
    none

/-- The JSON index entry written for one crate, transcribed from the `json!`
literal in `mock_crate_index`. -/
def index_entry_json (name version : List Nat) : Json :=
  .obj
    [ ("name", .str name)
    , ("vers", .str version)
    , ("deps", .arr [])
    , ("cksum",
       .str (utf8 "8a648e87a02fa31d9d9a3b7c76dbfee469402fbb4af3ae98b36c099d8a82bb18"))
    , ("features", .obj [])
    , ("yanked", .bool false)
    , ("links", .null) ]

/-- The directory a write of `mock_crate_index` lands in: the temporary
directory the function itself creates, or the caller-supplied directory. -/
inductive IndexRoot where
  | tempDir : IndexRoot
  | provided : IndexRoot
deriving DecidableEq, Repr

/-- One file written by `mock_crate_index`: the root directory it is placed
under, the shard directory components, the file name and its JSON content. -/
structure IndexWrite where
  root : IndexRoot
  dirs : List (List Nat)
  file : List Nat
  content : Json

/-- Shallow embedding of `mock_crate_index`.  The crates map becomes a list
of (name, version) byte-list pairs, the optional `mock_dir` argument an
`Option Unit`.  The result is `none` when some iteration panics; otherwise it
is the list of file writes together with the returned value (the fresh
temporary directory exactly when no `mock_dir` was supplied). -/
def mock_crate_index (crates : List (List Nat × List Nat))
    (mock_dir : Option Unit) : Option (List IndexWrite × Option IndexRoot) :=
  (crates.mapM (fun nv =>
      (crate_index_shard nv.1).map (fun sh =>
        { root := match mock_dir with
            | some _ => IndexRoot.provided
            | none => IndexRoot.tempDir
          dirs := sh.1, file := sh.2
          content := index_entry_json nv.1 nv.2 : IndexWrite }))).map
    (fun ws => (ws, if mock_dir.isNone then some IndexRoot.tempDir else none))

/-- Modelled from the spec: the documented sharding rule, written from the
spec's words alone for comparison with `crate_index_shard` — names of length
1–3 under a directory keyed by their length, names of length ≥ 4 under a
two-level directory keyed by their first two and next two characters. -/
def spec_shard_dirs (name : List Nat) : Option (List (List Nat)) :=
  if 1 ≤ name.length ∧ name.length ≤ 3 then
    some [lenDirName name.length]
  else if 4 ≤ name.length then
    some [name.take 2, (name.drop 2).take 2]
  else
    none

/-! ### The Build Plan Resolver ordering (modelled from the spec) -/

/-- Modelled from the spec: the source-kind component of a PackageId.  The
Build Plan Resolver itself is outside the sources at hand (only this testing
module is), so the resolver-side definitions below follow the spec's words. -/
inductive SourceKind where
  | registry : SourceKind
  | git : SourceKind
  | path : SourceKind
  | workspaceMember : SourceKind
deriving DecidableEq, Repr

/-- Numeric rank of a source kind, giving the third sort-key component. -/
def SourceKind.idx : SourceKind → Nat
  | .registry => 0
  | .git => 1
  | .path => 2
  | .workspaceMember => 3

/-- Modelled from the spec: a Package as the resolver's sort key sees it —
name, version and source kind, with name and version as byte strings. -/
structure SpecPackage where
  name : List Nat
  version : List Nat
  source : SourceKind
deriving DecidableEq, Repr

/-- Lexicographic (byte-wise) order on byte strings, standing in for the
order on names and on versions in the resolver's sort key. -/
def bytesLE : List Nat → List Nat → Bool
  | [], _ => true
  | _ :: _, [] => false
  | a :: as, b :: bs =>
    if a < b then true
    else if a = b then bytesLE as bs
    else false

/-- Modelled from the spec: the resolver's package comparison, ordering by
(name, version, source-kind) lexicographically. -/
def pkgLE (a b : SpecPackage) : Bool :=
  if a.name = b.name then
    if a.version = b.version then decide (a.source.idx ≤ b.source.idx)
    else bytesLE a.version b.version
  else bytesLE a.name b.name

/-- Modelled from the spec: the VersionGroup alias table.  A package sharing
its name with another package of a different version and not holding the
highest version of its group (byte-lexicographic order standing in for
semver order) is assigned the deterministic alias `name-version`; byte 45 is
the dash. -/
def alias_table (g : List SpecPackage) : List (SpecPackage × List Nat) :=
  g.filterMap (fun p =>
    let group := g.filter (fun q => q.name = p.name)
    if 1 < group.length ∧ ¬ group.all (fun q => bytesLE q.version p.version) then
      some (p, p.name ++ 45 :: p.version)
    else none)

/-- Modelled from the spec: the Build Plan Resolver's output ordering and
alias assignments — a stable sort of the raw graph's packages by
(name, version, source-kind) together with the alias table. -/
def resolve_plan (g : List SpecPackage) : List SpecPackage × List (SpecPackage × List Nat) :=
  (g.mergeSort pkgLE, alias_table g)

/-! ### Helper lemmas -/

theorem bytesLE_total : ∀ a b : List Nat, (bytesLE a b || bytesLE b a) = true
  | [], [] => rfl
  | [], _ :: _ => rfl
  | _ :: _, [] => rfl
  | a :: as, b :: bs => by
    rcases Nat.lt_trichotomy a b with h | h | h
    · simp [bytesLE, h]
    · subst h
      simpa [bytesLE] using bytesLE_total as bs
    · simp [bytesLE, h, Nat.lt_asymm h, Nat.ne_of_gt h]

theorem bytesLE_trans : ∀ a b c : List Nat,
    bytesLE a b = true → bytesLE b c = true → bytesLE a c = true
  | [], _, _, _, _ => rfl
  | _ :: _, [], _, h, _ => by simp [bytesLE] at h
  | _ :: _, _ :: _, [], _, h => by simp [bytesLE] at h
  | a :: as, b :: bs, c :: cs, hab, hbc => by
    by_cases h1 : a < b
    · by_cases h2 : b < c
      · simp [bytesLE, Nat.lt_trans h1 h2]
      · simp [bytesLE, h2] at hbc
        rcases hbc with ⟨hbc, _⟩
        subst hbc
        simp [bytesLE, h1]
    · simp [bytesLE, h1] at hab
      rcases hab with ⟨hab, htail⟩
      subst hab
      by_cases h2 : a < c
      · simp [bytesLE, h2]
      · simp [bytesLE, h2] at hbc ⊢
        rcases hbc with ⟨hbc, htail'⟩
        subst hbc
        exact ⟨rfl, bytesLE_trans as bs cs htail htail'⟩

theorem bytesLE_antisymm : ∀ a b : List Nat,
    bytesLE a b = true → bytesLE b a = true → a = b
  | [], [], _, _ => rfl
  | [], _ :: _, _, h => by simp [bytesLE] at h
  | _ :: _, [], h, _ => by simp [bytesLE] at h
  | a :: as, b :: bs, hab, hba => by
    by_cases h1 : a < b
    · simp [bytesLE, Nat.lt_asymm h1, Nat.ne_of_gt h1] at hba
    · simp [bytesLE, h1] at hab
      rcases hab with ⟨hab, htail⟩
      subst hab
      simp [bytesLE] at hba
      exact congrArg (a :: ·) (bytesLE_antisymm as bs htail hba)

theorem pkgLE_total (a b : SpecPackage) : (pkgLE a b || pkgLE b a) = true := by
  by_cases hn : a.name = b.name
  · have hn' : b.name = a.name := hn.symm
    by_cases hv : a.version = b.version
    · have hv' : b.version = a.version := hv.symm
      rcases Nat.le_total a.source.idx b.source.idx with h | h <;>
        simp [pkgLE, hn, hv, h]
    · have hv' : ¬ b.version = a.version := fun h => hv h.symm
      simp only [pkgLE, if_pos hn, if_pos hn', if_neg hv, if_neg hv']
      exact bytesLE_total a.version b.version
  · have hn' : ¬ b.name = a.name := fun h => hn h.symm
    simp only [pkgLE, if_neg hn, if_neg hn']
    exact bytesLE_total a.name b.name

theorem pkgLE_trans (a b c : SpecPackage) (hab : pkgLE a b = true)
    (hbc : pkgLE b c = true) : pkgLE a c = true := by
  by_cases hn1 : a.name = b.name
  · by_cases hn2 : b.name = c.name
    · have hn3 : a.name = c.name := hn1.trans hn2
      simp only [pkgLE, if_pos hn1] at hab
      simp only [pkgLE, if_pos hn2] at hbc
      simp only [pkgLE, if_pos hn3]
      by_cases hv1 : a.version = b.version
      · by_cases hv2 : b.version = c.version
        · rw [if_pos hv1] at hab
          rw [if_pos hv2] at hbc
          rw [if_pos (hv1.trans hv2), decide_eq_true_eq]
          rw [decide_eq_true_eq] at hab hbc
          exact Nat.le_trans hab hbc
        · rw [if_neg hv2] at hbc
          have hv3 : ¬ a.version = c.version := fun h => hv2 (hv1.symm.trans h)
          rw [if_neg hv3, hv1]
          exact hbc
      · rw [if_neg hv1] at hab
        by_cases hv2 : b.version = c.version
        · have hv3 : ¬ a.version = c.version := fun h => hv1 (h.trans hv2.symm)
          rw [if_neg hv3, ← hv2]
          exact hab
        · rw [if_neg hv2] at hbc
          by_cases hv3 : a.version = c.version
          · exfalso
            have hba : bytesLE b.version a.version = true := by
              rw [hv3]; exact hbc
            exact hv1 (bytesLE_antisymm _ _ hab hba)
          · rw [if_neg hv3]
            exact bytesLE_trans _ _ _ hab hbc
    · have hn3 : ¬ a.name = c.name := fun h => hn2 (hn1.symm.trans h)
      simp only [pkgLE, if_neg hn2] at hbc
      simp only [pkgLE, if_neg hn3]
      rw [hn1]
      exact hbc
  · by_cases hn2 : b.name = c.name
    · have hn3 : ¬ a.name = c.name := fun h => hn1 (h.trans hn2.symm)
      simp only [pkgLE, if_neg hn1] at hab
      simp only [pkgLE, if_neg hn3]
      rw [← hn2]
      exact hab
    · simp only [pkgLE, if_neg hn1] at hab
      simp only [pkgLE, if_neg hn2] at hbc
      by_cases hn3 : a.name = c.name
      · exfalso
        have hba : bytesLE b.name a.name = true := by
          rw [hn3]; exact hbc
        exact hn1 (bytesLE_antisymm _ _ hab hba)
      · simp only [pkgLE, if_neg hn3]
        exact bytesLE_trans _ _ _ hab hbc

theorem mapM_option_some_of_all {α β : Type} (f : α → Option β) :
    ∀ l : List α, (∀ a ∈ l, (f a).isSome = true) → ∃ ws, l.mapM f = some ws := by
  intro l
  induction l with
  | nil => exact fun _ => ⟨[], rfl⟩
  | cons a l ih =>
    intro h
    rcases Option.isSome_iff_exists.mp (h a (List.mem_cons_self a l)) with ⟨b, hb⟩
    rcases ih (fun x hx => h x (List.mem_cons_of_mem a hx)) with ⟨ws, hws⟩
    exact ⟨b :: ws, by rw [List.mapM_cons, hb, hws]; rfl⟩

theorem mapM_option_mem {α β : Type} (f : α → Option β) :
    ∀ (l : List α) (ws : List β), l.mapM f = some ws →
      ∀ w ∈ ws, ∃ a ∈ l, f a = some w := by
  intro l
  induction l with
  | nil =>
    intro ws h w hw
    rw [List.mapM_nil] at h
    cases h
    cases hw
  | cons a l ih =>
    intro ws h w hw
    rw [List.mapM_cons] at h
    cases hfa : f a with
    | none => rw [hfa] at h; cases h
    | some b =>
      rw [hfa] at h
      cases hml : l.mapM f with
      | none => rw [hml] at h; cases h
      | some bs =>
        rw [hml] at h
        cases h
        rcases List.mem_cons.mp hw with hwb | hwbs
        · exact ⟨a, List.mem_cons_self a l, hwb ▸ hfa⟩
        · rcases ih bs hml w hwbs with ⟨x, hx, hfx⟩
          exact ⟨x, List.mem_cons_of_mem a hx, hfx⟩

theorem mapM_option_mem_rev {α β : Type} (f : α → Option β) :
    ∀ (l : List α) (ws : List β), l.mapM f = some ws →
      ∀ a ∈ l, ∃ w ∈ ws, f a = some w := by
  intro l
  induction l with
  | nil =>
    intro ws _ a ha
    cases ha
  | cons x l ih =>
    intro ws h a ha
    rw [List.mapM_cons] at h
    cases hfx : f x with
    | none => rw [hfx] at h; cases h
    | some b =>
      rw [hfx] at h
      cases hml : l.mapM f with
      | none => rw [hml] at h; cases h
      | some bs =>
        rw [hml] at h
        cases h
        rcases List.mem_cons.mp ha with hax | hal
        · exact ⟨b, List.mem_cons_self b bs, hax ▸ hfx⟩
        · rcases ih bs hml a hal with ⟨w, hw, hfw⟩
          exact ⟨w, List.mem_cons_of_mem b hw, hfw⟩

theorem crate_index_shard_file (name : List Nat) (sh : List (List Nat) × List Nat)
    (h : crate_index_shard name = some sh) : sh.2 = name := by
  unfold crate_index_shard at h
  split at h
  · cases h; rfl
  · split at h
    · cases h; rfl
    · cases h

theorem is_char_boundary_of_ascii (name : List Nat) (h : ∀ b ∈ name, b < 128)
    (i : Nat) (hi : i ≤ name.length) : is_char_boundary name i = true := by
  unfold is_char_boundary
  split
  · rfl
  · cases hg : name.get? i with
    | some b =>
      have hb : b ∈ name := List.get?_mem hg
      simp [h b hb]
    | none =>
      have hlen : name.length ≤ i := List.get?_eq_none.mp hg
      simp [Nat.le_antisymm hi hlen]

theorem crate_index_shard_ascii (name : List Nat) (hascii : ∀ b ∈ name, b < 128)
    (hlen : 1 ≤ name.length) :
    ∃ dirs, spec_shard_dirs name = some dirs ∧
      crate_index_shard name = some (dirs, name) := by
  by_cases h4 : name.length < 4
  · refine ⟨[lenDirName name.length], ?_, ?_⟩
    · unfold spec_shard_dirs
      rw [if_pos ⟨hlen, Nat.lt_succ_iff.mp h4⟩]
    · unfold crate_index_shard
      rw [if_pos h4]
  · have h4' : 4 ≤ name.length := Nat.not_lt.mp h4
    refine ⟨[name.take 2, (name.drop 2).take 2], ?_, ?_⟩
    · unfold spec_shard_dirs
      rw [if_neg, if_pos h4']
      rintro ⟨-, h3⟩
      exact absurd (Nat.le_trans h4' h3) (by decide)
    · unfold crate_index_shard
      rw [if_neg h4, if_pos]
      rw [is_char_boundary_of_ascii name hascii 2 (Nat.le_trans (by decide) h4'),
        is_char_boundary_of_ascii name hascii 4 h4']
      rfl

theorem mock_crate_index_eq_some (crates : List (List Nat × List Nat))
    (mock_dir : Option Unit) (writes : List IndexWrite) (ret : Option IndexRoot)
    (h : mock_crate_index crates mock_dir = some (writes, ret)) :
    ret = (if mock_dir.isNone then some IndexRoot.tempDir else none) ∧
      crates.mapM (fun nv =>
        (crate_index_shard nv.1).map (fun sh =>
          { root := match mock_dir with
              | some _ => IndexRoot.provided
              | none => IndexRoot.tempDir
            dirs := sh.1, file := sh.2
            content := index_entry_json nv.1 nv.2 : IndexWrite })) = some writes := by
  unfold mock_crate_index at h
  rcases Option.map_eq_some'.mp h with ⟨ws, hws, heq⟩
  rcases Prod.mk.injEq .. ▸ heq with ⟨hw, hr⟩
  exact ⟨hr.symm, hw ▸ hws⟩

/-! ### Claim theorems -/

/-- C1: for every crate name/version pair in the input map (names being valid
package names: non-empty ASCII), `mock_crate_index` writes the index entry at
the sharded path determined solely by the name, and that path matches the
spec's rule: a directory named by the name's length for lengths 1–3, and a
two-level directory named by the first two and next two characters for
lengths ≥ 4.  The shard is the pure function `crate_index_shard` of the name
alone. -/
theorem c1_index_sharding (crates : List (List Nat × List Nat))
    (mock_dir : Option Unit)
    (hascii : ∀ nv ∈ crates, ∀ b ∈ nv.1, b < 128)
    (hlen : ∀ nv ∈ crates, 1 ≤ nv.1.length) :
    ∃ writes ret, mock_crate_index crates mock_dir = some (writes, ret) ∧
      ∀ nv ∈ crates, ∃ dirs,
        spec_shard_dirs nv.1 = some dirs ∧
        crate_index_shard nv.1 = some (dirs, nv.1) ∧
        ({ root := match mock_dir with
             | some _ => IndexRoot.provided
             | none => IndexRoot.tempDir
           dirs := dirs, file := nv.1
           content := index_entry_json nv.1 nv.2 : IndexWrite }) ∈ writes := by
  have hsome : ∀ nv ∈ crates,
      ((crate_index_shard nv.1).map (fun sh =>
        { root := match mock_dir with
            | some _ => IndexRoot.provided
            | none => IndexRoot.tempDir
          dirs := sh.1, file := sh.2
          content := index_entry_json nv.1 nv.2 : IndexWrite })).isSome = true := by
    intro nv hnv
    rcases crate_index_shard_ascii nv.1 (hascii nv hnv) (hlen nv hnv) with ⟨dirs, -, hsh⟩
    rw [hsh]
    rfl
  obtain ⟨ws, hws⟩ := mapM_option_some_of_all _ crates hsome
  refine ⟨ws, if mock_dir.isNone then some IndexRoot.tempDir else none, ?_, ?_⟩
  · unfold mock_crate_index
    rw [hws]
    rfl
  · intro nv hnv
    rcases crate_index_shard_ascii nv.1 (hascii nv hnv) (hlen nv hnv) with ⟨dirs, hspec, hsh⟩
    rcases mapM_option_mem_rev _ crates ws hws nv hnv with ⟨w, hw, hfw⟩
    rw [hsh] at hfw
    have hw' := Option.some.inj hfw
    rw [← hw'] at hw
    exact ⟨dirs, hspec, hsh, hw⟩

/-- C1 witness: a concrete map with the short name "abc" and the long name
"serde", with no caller-supplied directory. -/
theorem c1_index_sharding_witness :
    ∃ writes ret,
      mock_crate_index [([97, 98, 99], [49]), ([115, 101, 114, 100, 101], [50])] none =
        some (writes, ret) ∧
      ∀ nv ∈ [([97, 98, 99], [49]), ([115, 101, 114, 100, 101], [50])], ∃ dirs,
        spec_shard_dirs nv.1 = some dirs ∧
        crate_index_shard nv.1 = some (dirs, nv.1) ∧
        ({ root := match (none : Option Unit) with
             | some _ => IndexRoot.provided
             | none => IndexRoot.tempDir
           dirs := dirs, file := nv.1
           content := index_entry_json nv.1 nv.2 : IndexWrite }) ∈ writes :=
  c1_index_sharding [([97, 98, 99], [49]), ([115, 101, 114, 100, 101], [50])] none
    (by decide) (by decide)

/-- C7: for names of byte length at least 4, the shard computation inside
`mock_crate_index` succeeds exactly when byte indices 2 and 4 are UTF-8
character boundaries; the concrete name "aéb" (bytes 97, 195, 169, 98) has
byte length 4 but index 2 inside the two-byte character, so the slicing
panics; and the empty name is accepted by the length-under-4 branch. -/
theorem c7_boundary_partiality :
    (∀ name : List Nat, 4 ≤ name.length →
        ((crate_index_shard name).isSome = true ↔
          (is_char_boundary name 2 = true ∧ is_char_boundary name 4 = true))) ∧
    ((utf8 "aéb").length = 4 ∧ crate_index_shard (utf8 "aéb") = none) ∧
    crate_index_shard [] = some ([lenDirName 0], []) := by
  refine ⟨?_, ⟨rfl, rfl⟩, rfl⟩
  intro name h4
  unfold crate_index_shard
  rw [if_neg (Nat.not_lt.mpr h4)]
  cases h2 : is_char_boundary name 2 <;> cases hb4 : is_char_boundary name 4 <;>
    simp [h2, hb4]

/-- C7 witness: the first conjunct applied to the concrete four-byte ASCII
name "abcd". -/
theorem c7_boundary_partiality_witness :
    (crate_index_shard [97, 98, 99, 100]).isSome = true ↔
      (is_char_boundary [97, 98, 99, 100] 2 = true ∧
        is_char_boundary [97, 98, 99, 100] 4 = true) :=
  c7_boundary_partiality.1 [97, 98, 99, 100] (by decide)

/-- C4: every index entry written by `mock_crate_index` is the single JSON
object `index_entry_json` of its crate, carrying at least the fields name,
vers, deps, cksum, features, yanked and links, with name and vers equal to
the crate's name and version. -/
theorem c4_index_entry_shape (crates : List (List Nat × List Nat))
    (mock_dir : Option Unit) (writes : List IndexWrite) (ret : Option IndexRoot)
    (w : IndexWrite) (h : mock_crate_index crates mock_dir = some (writes, ret))
    (hw : w ∈ writes) :
    ∃ nv ∈ crates,
      w.file = nv.1 ∧
      w.content = index_entry_json nv.1 nv.2 ∧
      w.content.lookup "name" = some (Json.str nv.1) ∧
      w.content.lookup "vers" = some (Json.str nv.2) ∧
      (w.content.lookup "deps").isSome = true ∧
      (w.content.lookup "cksum").isSome = true ∧
      (w.content.lookup "features").isSome = true ∧
      (w.content.lookup "yanked").isSome = true ∧
      (w.content.lookup "links").isSome = true := by
  rcases mock_crate_index_eq_some crates mock_dir writes ret h with ⟨-, hmap⟩
  rcases mapM_option_mem _ crates writes hmap w hw with ⟨nv, hnv, hfw⟩
  rcases Option.map_eq_some'.mp hfw with ⟨sh, hsh, hgw⟩
  subst hgw
  exact ⟨nv, hnv, crate_index_shard_file nv.1 sh hsh, rfl, rfl, rfl, rfl, rfl, rfl, rfl, rfl⟩

/-- C4 witness: the single-crate map with name "ab" (bytes 97, 98) and
version "1" (byte 49). -/
theorem c4_index_entry_shape_witness :
    ∃ nv ∈ [(([97, 98] : List Nat), ([49] : List Nat))],
      ([97, 98] : List Nat) = nv.1 ∧
      index_entry_json [97, 98] [49] = index_entry_json nv.1 nv.2 ∧
      (index_entry_json [97, 98] [49]).lookup "name" = some (Json.str nv.1) ∧
      (index_entry_json [97, 98] [49]).lookup "vers" = some (Json.str nv.2) ∧
      ((index_entry_json [97, 98] [49]).lookup "deps").isSome = true ∧
      ((index_entry_json [97, 98] [49]).lookup "cksum").isSome = true ∧
      ((index_entry_json [97, 98] [49]).lookup "features").isSome = true ∧
      ((index_entry_json [97, 98] [49]).lookup "yanked").isSome = true ∧
      ((index_entry_json [97, 98] [49]).lookup "links").isSome = true :=
  c4_index_entry_shape [([97, 98], [49])] none
    [⟨IndexRoot.tempDir, [[50]], [97, 98], index_entry_json [97, 98] [49]⟩]
    (some IndexRoot.tempDir)
    ⟨IndexRoot.tempDir, [[50]], [97, 98], index_entry_json [97, 98] [49]⟩
    rfl (List.mem_singleton.mpr rfl)

/-- C8: every index entry written by `mock_crate_index` has yanked false,
empty deps, empty features, null links, and one constant cksum string shared
by all entries regardless of name and version. -/
theorem c8_entry_invariants (crates : List (List Nat × List Nat))
    (mock_dir : Option Unit) (writes : List IndexWrite) (ret : Option IndexRoot)
    (w : IndexWrite) (h : mock_crate_index crates mock_dir = some (writes, ret))
    (hw : w ∈ writes) :
    w.content.lookup "yanked" = some (Json.bool false) ∧
    w.content.lookup "deps" = some (Json.arr []) ∧
    w.content.lookup "features" = some (Json.obj []) ∧
    w.content.lookup "links" = some Json.null ∧
    w.content.lookup "cksum" =
      some (Json.str
        (utf8 "8a648e87a02fa31d9d9a3b7c76dbfee469402fbb4af3ae98b36c099d8a82bb18")) ∧
    ∀ name version : List Nat,
      (index_entry_json name version).lookup "cksum" = w.content.lookup "cksum" := by
  rcases mock_crate_index_eq_some crates mock_dir writes ret h with ⟨-, hmap⟩
  rcases mapM_option_mem _ crates writes hmap w hw with ⟨nv, hnv, hfw⟩
  rcases Option.map_eq_some'.mp hfw with ⟨sh, hsh, hgw⟩
  subst hgw
  exact ⟨rfl, rfl, rfl, rfl, rfl, fun _ _ => rfl⟩

/-- C8 witness: the yanked field of the entry written for the crate "ab". -/
theorem c8_entry_invariants_witness :
    (index_entry_json [97, 98] [49]).lookup "yanked" = some (Json.bool false) :=
  (c8_entry_invariants [([97, 98], [49])] none
    [⟨IndexRoot.tempDir, [[50]], [97, 98], index_entry_json [97, 98] [49]⟩]
    (some IndexRoot.tempDir)
    ⟨IndexRoot.tempDir, [[50]], [97, 98], index_entry_json [97, 98] [49]⟩
    rfl (List.mem_singleton.mpr rfl)).1

/-- C9: `mock_crate_index` returns the freshly created temporary directory
exactly when no `mock_dir` is supplied; when one is supplied it returns
`none` and every entry is written under the supplied directory, none under
the internal temporary directory. -/
theorem c9_return_and_target_dir (crates : List (List Nat × List Nat)) :
    (∀ writes ret, mock_crate_index crates none = some (writes, ret) →
        ret = some IndexRoot.tempDir ∧
        ∀ w ∈ writes, w.root = IndexRoot.tempDir) ∧
    (∀ u writes ret, mock_crate_index crates (some u) = some (writes, ret) →
        ret = none ∧
        ∀ w ∈ writes, w.root = IndexRoot.provided) := by
  constructor
  · intro writes ret h
    rcases mock_crate_index_eq_some crates none writes ret h with ⟨hr, hmap⟩
    refine ⟨hr, ?_⟩
    intro w hw
    rcases mapM_option_mem _ crates writes hmap w hw with ⟨nv, hnv, hfw⟩
    rcases Option.map_eq_some'.mp hfw with ⟨sh, hsh, hgw⟩
    subst hgw
    rfl
  · intro u writes ret h
    rcases mock_crate_index_eq_some crates (some u) writes ret h with ⟨hr, hmap⟩
    refine ⟨hr, ?_⟩
    intro w hw
    rcases mapM_option_mem _ crates writes hmap w hw with ⟨nv, hnv, hfw⟩
    rcases Option.map_eq_some'.mp hfw with ⟨sh, hsh, hgw⟩
    subst hgw
    rfl

/-- C9 witness: with no supplied directory, the write produced for the crate
"ab" lands in the temporary directory. -/
theorem c9_return_and_target_dir_witness :
    IndexWrite.root
      ⟨IndexRoot.tempDir, [[50]], [97, 98], index_entry_json [97, 98] [49]⟩ =
      IndexRoot.tempDir :=
  ((c9_return_and_target_dir [([97, 98], [49])]).1
    [⟨IndexRoot.tempDir, [[50]], [97, 98], index_entry_json [97, 98] [49]⟩]
    (some IndexRoot.tempDir) rfl).2
    ⟨IndexRoot.tempDir, [[50]], [97, 98], index_entry_json [97, 98] [49]⟩
    (List.mem_singleton.mpr rfl)

/-- C2: the crate-info endpoint registered by `mock_remote_crate` answers
`GET /api/v1/crates/name` with a JSON body holding a crate object (id, name,
versions) and a versions array whose single entry has id, crate, num and
dl_path fields, where num equals the requested version and the entry's id
appears in the crate object's versions list. -/
theorem c2_crate_info_endpoint (name version : String) :
    ∃ ep ∈ mock_remote_crate name version,
      ep.method = HttpMethod.GET ∧
      ep.path = "/api/v1/crates/" ++ name ∧
      ∃ body vlist ventry,
        ep.response = MockResponse.jsonBody 200 body ∧
        body.lookup "crate" =
          some (Json.obj
            [ ("id", Json.str (utf8 name))
            , ("name", Json.str (utf8 name))
            , ("versions", Json.arr vlist) ]) ∧
        body.lookup "versions" = some (Json.arr [ventry]) ∧
        ventry.lookup "id" = some (Json.num 123456) ∧
        ventry.lookup "crate" = some (Json.str (utf8 name)) ∧
        ventry.lookup "num" = some (Json.str (utf8 version)) ∧
        (ventry.lookup "dl_path").isSome = true ∧
        Json.num 123456 ∈ vlist := by
  refine ⟨_, List.mem_cons_self _ _, rfl, rfl,
    crate_info_body name version, [Json.num 123456], _,
    rfl, rfl, rfl, rfl, rfl, rfl, rfl, List.mem_singleton.mpr rfl⟩

/-- C3: the archive served by the download endpoint registered by
`mock_remote_crate` is a gzip-compressed tar whose every entry lives under
the top-level directory `package_ident name version` (the `name-version`
convention) and which contains a Cargo.toml and a Cargo.lock rendered for
that name and version. -/
theorem c3_download_archive (name version : String) :
    ∃ ep ∈ mock_remote_crate name version,
      ep.method = HttpMethod.GET ∧
      ∃ arch,
        ep.response = MockResponse.fileBody 200 "application/x-tar" arch ∧
        arch.format = ArchiveFormat.gzipTar ∧
        (∀ e ∈ arch.entries, ∃ sub,
          e.path = package_ident name version ++ "/" ++ sub) ∧
        (∃ e ∈ arch.entries,
          e.path = package_ident name version ++ "/" ++ "Cargo.toml" ∧
          e.content = named_toml_contents name version) ∧
        (∃ e ∈ arch.entries,
          e.path = package_ident name version ++ "/" ++ "Cargo.lock" ∧
          e.content = named_lock_contents name version) := by
  refine ⟨_, List.mem_cons_of_mem _ (List.mem_cons_self _ _), rfl,
    mock_tar_archive name version, rfl, rfl, ?_, ?_, ?_⟩
  · intro e he
    simp only [mock_tar_archive, List.mem_cons, List.not_mem_nil, or_false] at he
    rcases he with h | h | h <;> subst h
    · exact ⟨"test", rfl⟩
    · exact ⟨"Cargo.toml", rfl⟩
    · exact ⟨"Cargo.lock", rfl⟩
  · exact ⟨{ path := package_ident name version ++ "/" ++ "Cargo.toml"
           , content := named_toml_contents name version },
      List.mem_cons_of_mem _ (List.mem_cons_self _ _), rfl, rfl⟩
  · exact ⟨{ path := package_ident name version ++ "/" ++ "Cargo.lock"
           , content := named_lock_contents name version },
      List.mem_cons_of_mem _ (List.mem_cons_of_mem _ (List.mem_cons_self _ _)), rfl, rfl⟩

/-- C5: the dl_path announced in the crate-info response of
`mock_remote_crate` is exactly the path matched by its registered download
endpoint, `/api/v1/crates/name/version/download`, whose response is the
archive. -/
theorem c5_dl_path_matches_download_endpoint (name version : String) :
    ∃ info dl, mock_remote_crate name version = [info, dl] ∧
      dl.method = HttpMethod.GET ∧
      (∃ arch, dl.response = MockResponse.fileBody 200 "application/x-tar" arch) ∧
      ∃ body ventry,
        info.response = MockResponse.jsonBody 200 body ∧
        body.lookup "versions" = some (Json.arr [ventry]) ∧
        ventry.lookup "dl_path" = some (Json.str (utf8 dl.path)) ∧
        dl.path = "/api/v1/crates/" ++ name ++ "/" ++ version ++ "/download" :=
  ⟨_, _, rfl, rfl, ⟨_, rfl⟩, crate_info_body name version, _, rfl, rfl, rfl, rfl⟩

/-- C6: the Build Plan Resolver (modelled from the spec) is deterministic —
running it twice on the same raw graph yields identical orderings and alias
assignments — and its package ordering is a stable sort by
(name, version, source-kind): it is a permutation of the input, pairwise
ordered by the sort key, and input pairs already ordered by the key keep
their relative order. -/
theorem c6_resolver_deterministic (g : List SpecPackage) :
    resolve_plan g = resolve_plan g ∧
    (resolve_plan g).1.Perm g ∧
    List.Pairwise (fun a b => pkgLE a b = true) (resolve_plan g).1 ∧
    ∀ a b : SpecPackage, pkgLE a b = true → [a, b].Sublist g →
      [a, b].Sublist (resolve_plan g).1 :=
  ⟨rfl, List.mergeSort_perm g pkgLE,
    List.sorted_mergeSort pkgLE_trans pkgLE_total g,
    fun _ _ hab hsub => List.pair_sublist_mergeSort pkgLE_trans pkgLE_total hab hsub⟩

/-- C6 witness: two versions of one package, already in key order, keep
their relative order in the resolved plan. -/
theorem c6_resolver_deterministic_witness :
    [({ name := [97], version := [49], source := SourceKind.registry } : SpecPackage),
      { name := [97], version := [50], source := SourceKind.registry }].Sublist
      (resolve_plan
        [{ name := [97], version := [49], source := SourceKind.registry },
          { name := [97], version := [50], source := SourceKind.registry }]).1 :=
  (c6_resolver_deterministic
      [{ name := [97], version := [49], source := SourceKind.registry },
        { name := [97], version := [50], source := SourceKind.registry }]).2.2.2
    { name := [97], version := [49], source := SourceKind.registry }
    { name := [97], version := [50], source := SourceKind.registry }
    (by decide) (List.Sublist.refl _)

end CargoRaze
